import Mathlib

/-!
# pdf-editor: overlay construction, export and the parse endpoint

A shallow embedding of `src/App.jsx` (`initCanvas`, `downloadPDF`) and of the
`pdfParser_dataReady` handler of `src/server.js`.

JavaScript numbers are kept abstract in the embedding: every definition is
polymorphic in the number type `α` and takes `Math.sqrt` as the argument `sqrt`.
Two instances are used.  `F64` is the arithmetic the program runs in, IEEE-754
binary64 with round-to-nearest-even, gradual underflow, overflow to the
infinities and NaN (the two zeros are identified; the code never divides).
The real numbers (`α = ℝ`, `sqrt = Real.sqrt`) are the exact reading, without
rounding; a statement over `ℝ` is about the formulas, and it is a statement
about the program only where the doubles compute the same values.  JavaScript
strings are Lean strings (sequences of code points).
-/

set_option autoImplicit false

namespace PdfEditor

/-! ## Data model -/

/-- A six-entry affine matrix `[m0, m1, m2, m3, m4, m5]`, as pdf.js uses for
`viewport.transform` and `item.transform`. -/
structure Matrix6 (α : Type) where
  m0 : α
  m1 : α
  m2 : α
  m3 : α
  m4 : α
  m5 : α
deriving DecidableEq, Repr

/-- The fields of a pdf.js page viewport that `App.jsx` reads. -/
structure Viewport (α : Type) where
  width : α
  height : α
  scale : α
  transform : Matrix6 α
deriving DecidableEq, Repr

/-- One entry of `textContent.items`: the fields that `initCanvas` reads. -/
structure TextItem (α : Type) where
  str : String
  transform : Matrix6 α
  width : α
deriving DecidableEq, Repr

/-- The result of `page.getTextContent()`. -/
structure TextContent (α : Type) where
  items : List (TextItem α)
deriving DecidableEq, Repr

/-- The options `initCanvas` passes to `new fabric.Rect`. -/
structure Rect (α : Type) where
  left : α
  top : α
  width : α
  height : α
  fill : String
  selectable : Bool
  evented : Bool
deriving DecidableEq, Repr

/-- The text and options `initCanvas` passes to `new fabric.IText`. -/
structure IText (α : Type) where
  text : String
  left : α
  top : α
  fontSize : α
  fontFamily : String
  fill : String
  selectable : Bool
deriving DecidableEq, Repr

/-- An object added to the fabric canvas. -/
inductive FabricObject (α : Type) where
  | rect : Rect α → FabricObject α
  | itext : IText α → FabricObject α
deriving DecidableEq, Repr

/-- The fabric canvas: its size and its objects in insertion (paint) order. -/
structure Canvas (α : Type) where
  height : α
  width : α
  objects : List (FabricObject α)
deriving DecidableEq, Repr

/-- The call `canvas.add(obj)`: the object goes to the end of the object list. -/
def Canvas.add {α : Type} (c : Canvas α) (o : FabricObject α) : Canvas α :=
  { c with objects := c.objects ++ [o] }

/-! ## Strings -/

/-- White space and line terminators of ECMAScript, the characters
`String.prototype.trim` strips. -/
def isJSWhiteSpace (c : Char) : Bool :=
  let n := c.toNat
  n == 0x09 || n == 0x0A || n == 0x0B || n == 0x0C || n == 0x0D || n == 0x20 ||
  n == 0xA0 || n == 0x1680 || (0x2000 ≤ n && n ≤ 0x200A) || n == 0x2028 ||
  n == 0x2029 || n == 0x202F || n == 0x205F || n == 0x3000 || n == 0xFEFF

/-- The characters of `s.trim()`: white space removed from both ends. -/
def trimChars (l : List Char) : List Char :=
  ((l.dropWhile isJSWhiteSpace).reverse.dropWhile isJSWhiteSpace).reverse

/-- The method `String.prototype.trim`. -/
def jsTrim (s : String) : String := String.mk (trimChars s.data)

/-- JavaScript truthiness of a string: only the empty string is falsy. -/
def truthy (s : String) : Bool := !s.data.isEmpty

/-! ## Numbers: IEEE-754 binary64 -/

/-- Halving until below 2: with fuel at least `n` the result is the integer part
of the base-2 logarithm of `n` (0 for `n = 0`). -/
def log2Aux : ℕ → ℕ → ℕ
  | 0, _ => 0
  | k + 1, n => if 2 ≤ n then log2Aux k (n / 2) + 1 else 0

/-- The integer part of the base-2 logarithm of a natural number. -/
def log2 (n : ℕ) : ℕ := log2Aux n n

/-- The power of two with an integer exponent, as a rational. -/
def pow2 (e : ℤ) : ℚ :=
  if 0 ≤ e then ((2 ^ e.toNat : ℕ) : ℚ) else 1 / ((2 ^ (-e).toNat : ℕ) : ℚ)

/-- The integer part of the base-2 logarithm of the absolute value of a
non-zero rational: the binary exponent of the number. -/
def ilog2 (q : ℚ) : ℤ :=
  let e : ℤ := (log2 q.num.natAbs : ℤ) - (log2 q.den : ℤ)
  if pow2 e ≤ |q| then e else e - 1

/-- Rounding of a rational to a nearest integer, ties to the even one. -/
def roundHalfEven (m : ℚ) : ℤ :=
  let f := Rat.floor m
  if m - f < 1 / 2 then f
  else if 1 / 2 < m - f then f + 1
  else if f % 2 = 0 then f else f + 1

/-- Binary search for the integer square root over the bits `k - 1, …, 0`. -/
def isqrtAux : ℕ → ℕ → ℕ → ℕ
  | 0, _, r => r
  | k + 1, n, r =>
    if (r + 2 ^ k) * (r + 2 ^ k) ≤ n then isqrtAux k n (r + 2 ^ k) else isqrtAux k n r

/-- The integer square root: the greatest `r` with `r * r ≤ n`. -/
def isqrt (n : ℕ) : ℕ := isqrtAux (log2 n / 2 + 1) n 0

/-- A JavaScript number: a finite double, given by the rational it denotes, an
infinity with its sign, or NaN.  The zeros `+0` and `-0` are one value. -/
inductive F64 where
  | fin (q : ℚ)
  | inf (neg : Bool)
  | nan
deriving DecidableEq, Repr

/-- The double with sign `neg` and magnitude `r`, a multiple of the unit in
the last place already: magnitudes from `2 ^ 1024` on overflow to infinity. -/
def F64.ofMagnitude (neg : Bool) (r : ℚ) : F64 :=
  if pow2 1024 ≤ r then .inf neg else .fin (if neg then -r else r)

/-- Rounding of an exact result to the nearest double, ties to even: 53
significant bits, the exponent of the subnormals below `2 ^ (-1022)`, overflow
to infinity. -/
def F64.ofRat (q : ℚ) : F64 :=
  if q = 0 then .fin 0
  else
    let e := max (ilog2 q) (-1022)
    let ulp := pow2 (e - 52)
    F64.ofMagnitude (decide (q < 0)) (roundHalfEven (|q| / ulp) * ulp)

/-- Unary minus. -/
def F64.neg : F64 → F64
  | .fin q => .fin (-q)
  | .inf s => .inf (!s)
  | .nan => .nan

/-- The operator `*` on doubles. -/
def F64.mul : F64 → F64 → F64
  | .fin x, .fin y => F64.ofRat (x * y)
  | .fin x, .inf s => if x = 0 then .nan else .inf (xor (decide (x < 0)) s)
  | .inf s, .fin y => if y = 0 then .nan else .inf (xor s (decide (y < 0)))
  | .inf s, .inf t => .inf (xor s t)
  | _, _ => .nan

/-- The operator `+` on doubles. -/
def F64.add : F64 → F64 → F64
  | .fin x, .fin y => F64.ofRat (x + y)
  | .fin _, .inf s => .inf s
  | .inf s, .fin _ => .inf s
  | .inf s, .inf t => if s = t then .inf s else .nan
  | _, _ => .nan

/-- The operator `-` on doubles. -/
def F64.sub (x y : F64) : F64 := F64.add x (F64.neg y)

/-- The function `Math.sqrt`: the square root rounded to the nearest double. -/
def F64.sqrt : F64 → F64
  | .fin x =>
    if x = 0 then .fin 0
    else if x < 0 then .nan
    else
      let e := max (ilog2 x / 2) (-1022)
      let ulp := pow2 (e - 52)
      let y := x / (ulp * ulp)
      let f : ℚ := (isqrt (Rat.floor y).toNat : ℕ)
      let n : ℚ :=
        if y < (f + 1 / 2) * (f + 1 / 2) then f
        else if (f + 1 / 2) * (f + 1 / 2) < y then f + 1
        else if isqrt (Rat.floor y).toNat % 2 = 0 then f else f + 1
      F64.ofMagnitude false (n * ulp)
  | .inf false => .inf false
  | _ => .nan

/-- The comparison `x < y` of doubles; it is false when a side is NaN. -/
def F64.lt : F64 → F64 → Bool
  | .fin x, .fin y => decide (x < y)
  | .fin _, .inf s => !s
  | .inf s, .fin _ => s
  | .inf s, .inf t => s && !t
  | _, _ => false

instance : Add F64 := ⟨F64.add⟩

instance : Sub F64 := ⟨F64.sub⟩

instance : Mul F64 := ⟨F64.mul⟩

instance : Neg F64 := ⟨F64.neg⟩

instance : Zero F64 := ⟨.fin 0⟩

instance : LT F64 := ⟨fun x y => F64.lt x y = true⟩

instance (x y : F64) : Decidable (x < y) := inferInstanceAs (Decidable (F64.lt x y = true))

/-- A decimal literal is the double nearest to the decimal number. -/
instance : OfScientific F64 := ⟨fun m s e => F64.ofRat (OfScientific.ofScientific m s e)⟩

/-- An integer literal is the double nearest to the integer. -/
instance (n : ℕ) : OfNat F64 n := ⟨F64.ofRat n⟩

/-- The value is a finite double: a rational that rounding leaves as it is. -/
def F64.IsFiniteDouble (x : F64) : Prop := ∃ q : ℚ, x = .fin q ∧ F64.ofRat q = .fin q

/-- The value is a positive infinity or a finite number not below `c`. -/
def F64.AtLeast (c : ℚ) : F64 → Prop
  | .fin r => c ≤ r
  | .inf s => s = false
  | .nan => False

/-! ## `App.jsx` -/

section App

variable {α : Type} [Add α] [Sub α] [Mul α] [OfScientific α]

/-- Modelled from the spec: `pdfjsLib.Util.transform` belongs to the pdf.js
library and is not under `src/`; the spec describes it as the composition of
two affine matrices (document→screen ∘ run-local), which for six-entry
matrices is the product below. -/
def Util.transform (m1 m2 : Matrix6 α) : Matrix6 α :=
  { m0 := m1.m0 * m2.m0 + m1.m2 * m2.m1
    m1 := m1.m1 * m2.m0 + m1.m3 * m2.m1
    m2 := m1.m0 * m2.m2 + m1.m2 * m2.m3
    m3 := m1.m1 * m2.m2 + m1.m3 * m2.m3
    m4 := m1.m0 * m2.m4 + m1.m2 * m2.m5 + m1.m4
    m5 := m1.m1 * m2.m4 + m1.m3 * m2.m5 + m1.m5 }

/-- The constant `fontSize` of the overlay loop (line 75). -/
def fontSize (sqrt : α → α) (item : TextItem α) : α :=
  sqrt (item.transform.m0 * item.transform.m0 + item.transform.m1 * item.transform.m1)

/-- The constant `scaledFontSize` of the overlay loop (line 76). -/
def scaledFontSize (sqrt : α → α) (viewport : Viewport α) (item : TextItem α) : α :=
  fontSize sqrt item * viewport.scale

/-- The constant `finalX` of the overlay loop (line 80): entry 4 of the
composed matrix. -/
def finalX (viewport : Viewport α) (item : TextItem α) : α :=
  (Util.transform viewport.transform item.transform).m4

/-- The constant `finalY` of the overlay loop (line 81): entry 5 of the
composed matrix minus the scaled font size. -/
def finalY (sqrt : α → α) (viewport : Viewport α) (item : TextItem α) : α :=
  (Util.transform viewport.transform item.transform).m5 - scaledFontSize sqrt viewport item

/-- The constant `whitePatch` of the overlay loop (lines 88-97). -/
def whitePatch (sqrt : α → α) (viewport : Viewport α) (item : TextItem α) : Rect α :=
  { left := finalX viewport item
    top := finalY sqrt viewport item
    width := item.width * viewport.scale
    height := scaledFontSize sqrt viewport item * 1.2
    fill := "white"
    selectable := false
    evented := false }

/-- The constant `editableText` of the overlay loop (lines 100-107). -/
def editableText (sqrt : α → α) (viewport : Viewport α) (item : TextItem α) : IText α :=
  { text := item.str
    left := finalX viewport item
    top := finalY sqrt viewport item
    fontSize := scaledFontSize sqrt viewport item
    fontFamily := "Helvetica"
    fill := "#000"
    selectable := true }

/-- The test `!textString.trim()` of line 85: the run is skipped when it holds. -/
def isBlank (item : TextItem α) : Bool := !truthy (jsTrim item.str)

/-- The body of the `forEach` callback of `initCanvas` (lines 64-111), acting on
the canvas built so far: a blank run returns early, any other run adds its
patch and then its text. -/
def overlayItem (sqrt : α → α) (viewport : Viewport α) (newCanvas : Canvas α)
    (item : TextItem α) : Canvas α :=
  if isBlank item then newCanvas
  else
    (newCanvas.add (.rect (whitePatch sqrt viewport item))).add
      (.itext (editableText sqrt viewport item))

/-- The function `initCanvas` (lines 46-114): the previous canvas, if any, is
disposed of, a fresh canvas of the viewport's size is created and the overlay
loop runs over `textContent.items`.  The background image is attached later by
an asynchronous callback and is not one of the canvas's objects. -/
def initCanvas (sqrt : α → α) (_canvas : Option (Canvas α)) (viewport : Viewport α)
    (textContent : TextContent α) : Canvas α :=
  let newCanvas : Canvas α :=
    { height := viewport.height, width := viewport.width, objects := [] }
  textContent.items.foldl (overlayItem sqrt viewport) newCanvas

end App

/-! ### Export -/

/-- The options object `downloadPDF` passes to `new jsPDF`. -/
structure JsPDFOptions (α : Type) where
  orientation : String
  unit : String
  format : α × α
deriving DecidableEq, Repr

/-- The arguments of the call `pdf.addImage(dataURL, 'PNG', x, y, w, h)`. -/
structure AddImageCall (α : Type) where
  imageData : String
  format : String
  x : α
  y : α
  width : α
  height : α
deriving DecidableEq, Repr

/-- What one run of `downloadPDF` asks of jsPDF: the document's options, the
single image put on its page and the name it is saved under. -/
structure SavedDocument (α : Type) where
  options : JsPDFOptions α
  image : AddImageCall α
  fileName : String
deriving DecidableEq, Repr

/-- The function `downloadPDF` (lines 116-126).  `toDataURL` stands for fabric's
rasteriser `canvas.toDataURL`; with no canvas nothing is produced. -/
def downloadPDF {α : Type} [Zero α] [LT α] [DecidableRel (fun a b : α => a < b)]
    (toDataURL : Canvas α → String) (canvas : Option (Canvas α)) :
    Option (SavedDocument α) :=
  match canvas with
  | none => none
  | some canvas =>
    let dataURL := toDataURL canvas
    let pdf : JsPDFOptions α :=
      { orientation := if canvas.width > canvas.height then "l" else "p"
        unit := "px"
        format := (canvas.width, canvas.height) }
    some
      { options := pdf
        image :=
          { imageData := dataURL, format := "PNG", x := 0, y := 0
            width := canvas.width, height := canvas.height }
        fileName := "edited-document.pdf" }

/-! ## `server.js`: the `pdfParser_dataReady` handler -/

/-- The exceptions the handler can raise. -/
inductive JSError where
  | typeError
  | uriError
  | enoent
deriving DecidableEq, Repr

/-- A text run of pdf2json: the encoded text `T` and the style array `TS`. -/
structure Run (α : Type) where
  T : String
  TS : List α
deriving DecidableEq, Repr

/-- A text block of pdf2json: its position and its runs `R`. -/
structure Text (α : Type) where
  x : α
  y : α
  R : List (Run α)
deriving DecidableEq, Repr

/-- A page of pdf2json's output. -/
structure Page (α : Type) where
  Width : α
  Height : α
  Texts : List (Text α)
deriving DecidableEq, Repr

/-- The argument of the `pdfParser_dataReady` event. -/
structure PdfData (α : Type) where
  Pages : List (Page α)
deriving DecidableEq, Repr

/-- One element of `parsedData.texts`.  `fontSize` is `none` when `TS[1]` is
`undefined` (the key is then left out of the JSON). -/
structure TextEntry (α : Type) where
  text : String
  x : α
  y : α
  fontSize : Option α
  color : String
deriving DecidableEq, Repr

/-- The object `parsedData` sent with `res.json`. -/
structure ParsedData (α : Type) where
  width : α
  height : α
  texts : List (TextEntry α)
deriving DecidableEq, Repr

/-- The value of a hexadecimal digit. -/
def hexDigit (c : Char) : Option Nat :=
  let n := c.toNat
  if 48 ≤ n ∧ n ≤ 57 then some (n - 48)
  else if 97 ≤ n ∧ n ≤ 102 then some (n - 87)
  else if 65 ≤ n ∧ n ≤ 70 then some (n - 55)
  else none

/-- An escape `%XX` at the head of the input: its octet and the rest. -/
def parseHexOctet : List Char → Option (Nat × List Char)
  | '%' :: a :: b :: rest =>
    match hexDigit a, hexDigit b with
    | some x, some y => some (16 * x + y, rest)
    | _, _ => none
  | _ => none

/-- The next `n` escapes `%XX` of the input: their octets and the rest. -/
def parseHexOctets : Nat → List Char → Option (List Nat × List Char)
  | 0, l => some ([], l)
  | n + 1, l =>
    match parseHexOctet l with
    | none => none
    | some (b, rest) =>
      match parseHexOctets n rest with
      | none => none
      | some (bs, rest1) => some (b :: bs, rest1)

/-- The code point that a leading octet `b` (of a sequence of two to four
octets) and its continuation octets `bs` encode in UTF-8, if the encoding is
valid: continuation octets in 0x80..0xBF, no overlong form, no surrogate,
nothing above 0x10FFFF. -/
def utf8CodePoint (b : Nat) (bs : List Nat) : Option Nat :=
  if bs.all (fun x => 0x80 ≤ x && x ≤ 0xBF) then
    let lead := if b < 0xE0 then b - 0xC0 else if b < 0xF0 then b - 0xE0 else b - 0xF0
    let least := if b < 0xE0 then 0x80 else if b < 0xF0 then 0x800 else 0x10000
    let cp := bs.foldl (fun acc x => acc * 64 + (x - 0x80)) lead
    if least ≤ cp ∧ cp ≤ 0x10FFFF ∧ ¬ (0xD800 ≤ cp ∧ cp ≤ 0xDFFF) then some cp else none
  else none

/-- The operation Decode of ECMAScript with an empty set of preserved escapes,
on the characters of a string; `fuel` bounds the number of steps and the length
of the input is always enough. -/
def decodeChars : Nat → List Char → Except JSError (List Char)
  | _, [] => .ok []
  | 0, _ :: _ => .error .uriError
  | fuel + 1, c :: rest =>
    if c = '%' then
      match parseHexOctet (c :: rest) with
      | none => .error .uriError
      | some (b, rest1) =>
        if b < 0x80 then
          match decodeChars fuel rest1 with
          | .error e => .error e
          | .ok out => .ok (Char.ofNat b :: out)
        else if b < 0xC0 ∨ 0xF8 ≤ b then .error .uriError
        else
          let n := if b < 0xE0 then 2 else if b < 0xF0 then 3 else 4
          match parseHexOctets (n - 1) rest1 with
          | none => .error .uriError
          | some (bs, rest2) =>
            match utf8CodePoint b bs with
            | none => .error .uriError
            | some cp =>
              match decodeChars fuel rest2 with
              | .error e => .error e
              | .ok out => .ok (Char.ofNat cp :: out)
    else
      match decodeChars fuel rest with
      | .error e => .error e
      | .ok out => .ok (c :: out)

/-- The built-in `decodeURIComponent` on well-formed strings: percent escapes
are replaced by the characters their UTF-8 octets encode, and a malformed
escape raises a `URIError`. -/
def decodeURIComponent (s : String) : Except JSError String :=
  match decodeChars s.data.length s.data with
  | .error e => .error e
  | .ok out => .ok (String.mk out)

/-- The arrow function mapped over `page1.Texts` (lines 34-40).  Reading a
property of `t.R[0]` when `R` is empty raises a `TypeError`;
the parameter `decodeURIComponent` stands for the language built-in of that
name, which raises on malformed input. -/
def textEntry {α : Type} (decodeURIComponent : String → Except JSError String)
    (t : Text α) : Except JSError (TextEntry α) :=
  match t.R[0]? with
  | none => .error .typeError
  | some r0 =>
    match decodeURIComponent r0.T with
    | .error e => .error e
    | .ok text =>
      .ok { text := text, x := t.x, y := t.y, fontSize := r0.TS[1]?, color := "#000000" }

/-- The method `Array.prototype.map` with a callback that may raise: the
elements are visited in order and the first exception ends the call. -/
def arrayMap {β γ : Type} (f : β → Except JSError γ) : List β → Except JSError (List γ)
  | [] => .ok []
  | b :: bs =>
    match f b with
    | .error e => .error e
    | .ok c =>
      match arrayMap f bs with
      | .error e => .error e
      | .ok cs => .ok (c :: cs)

/-- The call `fs.unlinkSync(path)` on a file system given by the list of
existing paths. -/
def unlinkSync (files : List String) (path : String) : Except JSError (List String) :=
  if path ∈ files then .ok (files.filter (fun q => q != path)) else .error .enoent

/-- The `pdfParser_dataReady` handler (lines 26-47): from the parsed document,
the existing files and `req.file.path` to the files left and the JSON sent, or
the exception raised before any response. -/
def dataReady {α : Type} (decodeURIComponent : String → Except JSError String)
    (files : List String) (reqFilePath : String) (pdfData : PdfData α) :
    Except JSError (List String × ParsedData α) :=
  match pdfData.Pages[0]? with
  | none => .error .typeError
  | some page1 =>
    match arrayMap (textEntry decodeURIComponent) page1.Texts with
    | .error e => .error e
    | .ok texts =>
      let parsedData : ParsedData α :=
        { width := page1.Width, height := page1.Height, texts := texts }
      match unlinkSync files reqFilePath with
      | .error e => .error e
      | .ok files1 => .ok (files1, parsedData)

/-- The texts of the editable elements of an object list, in order. -/
def editableStrings {α : Type} : List (FabricObject α) → List String
  | [] => []
  | .rect _ :: rest => editableStrings rest
  | .itext t :: rest => t.text :: editableStrings rest

/-- A rotation matrix with cosine `c` and sine `s`, as a six-entry matrix. -/
def rotation {α : Type} [Zero α] [Neg α] (c s : α) : Matrix6 α :=
  { m0 := c, m1 := s, m2 := -s, m3 := c, m4 := 0, m5 := 0 }

/-- The font size as the spec's section 4.1 words it: the Euclidean norm of the
first column of the composed matrix, multiplied by `viewport.scale`. -/
def specComposedFontSize {α : Type} [Add α] [Mul α] (sqrt : α → α) (viewport : Viewport α)
    (item : TextItem α) : α :=
  sqrt ((Util.transform viewport.transform item.transform).m0
        * (Util.transform viewport.transform item.transform).m0
      + (Util.transform viewport.transform item.transform).m1
        * (Util.transform viewport.transform item.transform).m1) * viewport.scale

/-- The object at position `j` of `objs` is a patch with the position of the
text `t`, the width `w` and a height of at least 1.2 times the font size of
`t`. -/
def OcclusionPatchAt {α : Type} [LE α] [Mul α] [OfScientific α]
    (objs : List (FabricObject α)) (t : IText α) (w : α) (j : Nat) : Prop :=
  ∃ p : Rect α, objs[j]? = some (.rect p) ∧ p.left = t.left ∧ p.top = t.top
    ∧ p.width = w ∧ 1.2 * t.fontSize ≤ p.height

/-! ## Properties of the overlay loop -/

theorem trimChars_isEmpty (l : List Char) :
    (trimChars l).isEmpty = l.all isJSWhiteSpace := by
  unfold trimChars
  rw [Bool.eq_iff_iff]
  simp only [List.isEmpty_iff, List.reverse_eq_nil_iff, List.dropWhile_eq_nil_iff,
    List.mem_reverse, List.all_eq_true]
  constructor
  · intro h
    have hnil : l.dropWhile isJSWhiteSpace = [] := by
      by_contra hne
      have := List.head_dropWhile_not isJSWhiteSpace l hne
      have h2 := h _ (List.head_mem hne)
      simp [h2] at this
    exact List.dropWhile_eq_nil_iff.mp hnil
  · intro h x hx
    exact h x ((List.dropWhile_sublist _).subset hx)

/-- The test of line 85 holds exactly for the strings made of white space
only, the empty string among them. -/
theorem isBlank_eq_all {α : Type} (item : TextItem α) :
    isBlank item = item.str.data.all isJSWhiteSpace := by
  rw [← trimChars_isEmpty]
  simp [isBlank, truthy, jsTrim]

section OverlayLemmas

variable {α : Type} [Add α] [Sub α] [Mul α] [OfScientific α]

theorem overlayItem_objects (sqrt : α → α) (v : Viewport α) (c : Canvas α) (item : TextItem α) :
    (overlayItem sqrt v c item).objects = c.objects ++
      (if isBlank item then []
       else [.rect (whitePatch sqrt v item), .itext (editableText sqrt v item)]) := by
  cases h : isBlank item <;> simp [overlayItem, h, Canvas.add]

theorem foldl_overlayItem_objects (sqrt : α → α) (v : Viewport α) (items : List (TextItem α))
    (c : Canvas α) :
    (items.foldl (overlayItem sqrt v) c).objects
      = c.objects ++ (items.filter (fun i => !isBlank i)).flatMap
          (fun i => [.rect (whitePatch sqrt v i), .itext (editableText sqrt v i)]) := by
  induction items generalizing c with
  | nil => simp
  | cons item rest ih =>
    rw [List.foldl_cons, ih, overlayItem_objects]
    cases h : isBlank item <;> simp [List.filter_cons, h]

theorem initCanvas_objects (sqrt : α → α) (prev : Option (Canvas α)) (v : Viewport α)
    (tc : TextContent α) :
    (initCanvas sqrt prev v tc).objects = (tc.items.filter (fun i => !isBlank i)).flatMap
          (fun i => [.rect (whitePatch sqrt v i), .itext (editableText sqrt v i)]) := by
  simp [initCanvas, foldl_overlayItem_objects]

/-- C7: the elements added to the canvas are exactly one patch followed by one
text per run with non-blank content, in the order of the runs; their number is
twice the number of non-blank runs and the strings of the editable texts are
the non-blank runs' strings, unchanged, in input order. -/
theorem C7_one_pair_per_nonblank_run (sqrt : α → α) (prev : Option (Canvas α))
    (v : Viewport α) (tc : TextContent α) :
    (initCanvas sqrt prev v tc).objects
        = (tc.items.filter (fun i => !isBlank i)).flatMap
            (fun i => [.rect (whitePatch sqrt v i), .itext (editableText sqrt v i)])
      ∧ (initCanvas sqrt prev v tc).objects.length
        = 2 * (tc.items.filter (fun i => !isBlank i)).length
      ∧ editableStrings (initCanvas sqrt prev v tc).objects
        = (tc.items.filter (fun i => !isBlank i)).map (fun i => i.str) := by
  rw [initCanvas_objects]
  refine ⟨rfl, ?_, ?_⟩
  · induction tc.items.filter (fun i => !isBlank i) with
    | nil => rfl
    | cons i rest ih => simp only [List.flatMap_cons, List.length_append, ih,
        List.length_cons, List.length_nil]; omega
  · induction tc.items.filter (fun i => !isBlank i) with
    | nil => rfl
    | cons i rest ih =>
      change editableStrings (.rect _ :: .itext _ :: rest.flatMap _) = _
      rw [editableStrings, editableStrings, ih]
      rfl

/-- C5: a run whose trimmed content is empty (such as "   " or "") adds nothing
to the canvas: the loop body returns the canvas unchanged, the built objects are
those of the input with its blank runs removed, a page of blank runs only has
no overlay element, and building again over the canvas just built gives the
same canvas. -/
theorem C5_blank_runs_add_nothing (sqrt : α → α) (prev : Option (Canvas α))
    (v : Viewport α) (tc : TextContent α) :
    (∀ (m : Matrix6 α) (w : α), isBlank ⟨"   ", m, w⟩ = true ∧ isBlank ⟨"", m, w⟩ = true)
      ∧ (∀ item : TextItem α, isBlank item = true ↔ (jsTrim item.str).data = [])
      ∧ (∀ (c : Canvas α) (item : TextItem α), isBlank item = true →
          overlayItem sqrt v c item = c)
      ∧ (initCanvas sqrt prev v tc).objects
          = (initCanvas sqrt prev v ⟨tc.items.filter (fun i => !isBlank i)⟩).objects
      ∧ ((∀ item ∈ tc.items, isBlank item = true) → (initCanvas sqrt prev v tc).objects = [])
      ∧ initCanvas sqrt (some (initCanvas sqrt prev v tc)) v tc = initCanvas sqrt prev v tc := by
  refine ⟨fun m w => ⟨rfl, rfl⟩, ?_, ?_, ?_, ?_, rfl⟩
  · intro item
    simp [isBlank, truthy]
  · intro c item h
    simp [overlayItem, h]
  · simp only [initCanvas_objects, List.filter_filter, Bool.and_self]
  · intro h
    rw [initCanvas_objects]
    have : tc.items.filter (fun i => !isBlank i) = [] := by
      rw [List.filter_eq_nil_iff]
      intro a ha
      simp [h a ha]
    rw [this]
    rfl

end OverlayLemmas

/-! ## Geometry over the real numbers -/

theorem sqrt_sq_add_zero (x : ℝ) (hx : 0 ≤ x) : Real.sqrt (x * x + 0 * 0) = x := by
  rw [mul_zero, add_zero, Real.sqrt_mul_self hx]

theorem pair_mem_initCanvas {α : Type} [Add α] [Sub α] [Mul α] [OfScientific α]
    (sqrt : α → α) (prev : Option (Canvas α)) (v : Viewport α) (tc : TextContent α)
    (item : TextItem α) (hmem : item ∈ tc.items) (hnb : truthy (jsTrim item.str) = true) :
    FabricObject.rect (whitePatch sqrt v item) ∈ (initCanvas sqrt prev v tc).objects
      ∧ FabricObject.itext (editableText sqrt v item) ∈ (initCanvas sqrt prev v tc).objects := by
  rw [initCanvas_objects]
  have hf : item ∈ tc.items.filter (fun i => !isBlank i) := by
    rw [List.mem_filter]
    exact ⟨hmem, by simp [isBlank, hnb]⟩
  constructor <;> rw [List.mem_flatMap] <;> exact ⟨item, hf, by simp⟩

/-- C1: for every run with non-blank content and every viewport, the canvas
built by `initCanvas` holds the run's patch and editable text at
left = tx[4] and top = tx[5] - fontSizePx, where tx is
`Util.transform(viewport.transform, item.transform)` and
fontSizePx = sqrt(a² + b²) · viewport.scale for the first two entries a, b of
the run's own matrix; for scale 1.5 and run matrix [12,0,0,12,50,700] the font
size is 18 and top is the composed ty minus 18. -/
theorem C1_overlay_position (prev : Option (Canvas ℝ)) (v : Viewport ℝ) (tc : TextContent ℝ)
    (item : TextItem ℝ) (hmem : item ∈ tc.items) (hnb : truthy (jsTrim item.str) = true) :
    FabricObject.rect
        { left := (Util.transform v.transform item.transform).m4
          top := (Util.transform v.transform item.transform).m5
            - Real.sqrt (item.transform.m0 * item.transform.m0
                + item.transform.m1 * item.transform.m1) * v.scale
          width := item.width * v.scale
          height := Real.sqrt (item.transform.m0 * item.transform.m0
                + item.transform.m1 * item.transform.m1) * v.scale * 1.2
          fill := "white"
          selectable := false
          evented := false } ∈ (initCanvas Real.sqrt prev v tc).objects
      ∧ FabricObject.itext
        { text := item.str
          left := (Util.transform v.transform item.transform).m4
          top := (Util.transform v.transform item.transform).m5
            - Real.sqrt (item.transform.m0 * item.transform.m0
                + item.transform.m1 * item.transform.m1) * v.scale
          fontSize := Real.sqrt (item.transform.m0 * item.transform.m0
                + item.transform.m1 * item.transform.m1) * v.scale
          fontFamily := "Helvetica"
          fill := "#000"
          selectable := true } ∈ (initCanvas Real.sqrt prev v tc).objects
      ∧ (v.scale = 1.5 → item.transform = ⟨12, 0, 0, 12, 50, 700⟩ →
          scaledFontSize Real.sqrt v item = 18
            ∧ finalY Real.sqrt v item
              = (Util.transform v.transform item.transform).m5 - 18) := by
  refine ⟨(pair_mem_initCanvas Real.sqrt prev v tc item hmem hnb).1,
    (pair_mem_initCanvas Real.sqrt prev v tc item hmem hnb).2, ?_⟩
  intro hs ht
  have h18 : scaledFontSize Real.sqrt v item = 18 := by
    simp only [scaledFontSize, fontSize, ht, hs]
    rw [sqrt_sq_add_zero _ (by norm_num)]
    norm_num
  exact ⟨h18, by rw [finalY, h18]⟩

/-- Witness of C1: the viewport of scale 1.5 over a page of height 800 and the
single run "Hello" with matrix [12,0,0,12,50,700] and width 40. -/
theorem C1_overlay_position_witness :
    (FabricObject.itext
        { text := "Hello", left := 75, top := -268, fontSize := 18
          fontFamily := "Helvetica", fill := "#000", selectable := true } : FabricObject ℝ)
      ∈ (initCanvas Real.sqrt none
          (⟨600, 800, 1.5, ⟨1.5, 0, 0, -1.5, 0, 800⟩⟩ : Viewport ℝ)
          ⟨[⟨"Hello", ⟨12, 0, 0, 12, 50, 700⟩, 40⟩]⟩).objects := by
  have h := (C1_overlay_position none (⟨600, 800, 1.5, ⟨1.5, 0, 0, -1.5, 0, 800⟩⟩ : Viewport ℝ)
    ⟨[⟨"Hello", ⟨12, 0, 0, 12, 50, 700⟩, 40⟩]⟩ ⟨"Hello", ⟨12, 0, 0, 12, 50, 700⟩, 40⟩
    (List.mem_singleton.mpr rfl) (by decide)).2.1
  convert h using 2
  simp only [Util.transform]
  rw [sqrt_sq_add_zero _ (by norm_num)]
  norm_num

/-- C3: the font size computed for a run is unchanged when the run's matrix M
is replaced by a rotation by the angle θ composed with M, which rotates M's
first column (a, b). -/
theorem C3_font_size_rotation_invariant (v : Viewport ℝ) (item : TextItem ℝ) (θ : ℝ) :
    scaledFontSize Real.sqrt v
        { item with
          transform := Util.transform (rotation (Real.cos θ) (Real.sin θ)) item.transform }
      = scaledFontSize Real.sqrt v item := by
  simp only [scaledFontSize, fontSize, Util.transform, rotation]
  congr 2
  have h := Real.cos_sq_add_sin_sq θ
  have e : ∀ c s a b : ℝ, (c * a + -s * b) * (c * a + -s * b) + (s * a + c * b) * (s * a + c * b)
      = (c ^ 2 + s ^ 2) * (a * a + b * b) := by
    intro c s a b
    ring
  rw [e, h, one_mul]

/-- C4: for a viewport with positive scale and a run whose matrix [a,b,c,d,e,f]
has a·d − b·c ≠ 0, the font size computed by the overlay loop is strictly
positive, and so is the font size of the editable text the loop adds for the
run when its content is not blank. -/
theorem C4_font_size_positive (v : Viewport ℝ) (item : TextItem ℝ) (hscale : 0 < v.scale)
    (hdet : item.transform.m0 * item.transform.m3
      - item.transform.m1 * item.transform.m2 ≠ 0) :
    0 < scaledFontSize Real.sqrt v item
      ∧ ∀ c : Canvas ℝ, isBlank item = false →
          ∃ p t, (overlayItem Real.sqrt v c item).objects = c.objects ++ [.rect p, .itext t]
            ∧ 0 < t.fontSize := by
  have hpos : 0 < scaledFontSize Real.sqrt v item := by
    unfold scaledFontSize fontSize
    apply mul_pos _ hscale
    apply Real.sqrt_pos.mpr
    by_contra hc
    have h0 : item.transform.m0 * item.transform.m0 + item.transform.m1 * item.transform.m1 = 0 :=
      le_antisymm (not_lt.mp hc) (add_nonneg (mul_self_nonneg _) (mul_self_nonneg _))
    obtain ⟨ha, hb⟩ := mul_self_add_mul_self_eq_zero.mp h0
    apply hdet
    rw [ha, hb]
    ring
  refine ⟨hpos, fun c hb => ⟨whitePatch Real.sqrt v item, editableText Real.sqrt v item, ?_, hpos⟩⟩
  rw [overlayItem_objects, hb]
  rfl

/-- Witness of C4: scale 1.5 and the run matrix [12,0,0,12,50,700]. -/
theorem C4_font_size_positive_witness :
    0 < scaledFontSize Real.sqrt (⟨600, 800, 1.5, ⟨1.5, 0, 0, -1.5, 0, 800⟩⟩ : Viewport ℝ)
      ⟨"Hello", ⟨12, 0, 0, 12, 50, 700⟩, 40⟩ :=
  (C4_font_size_positive ⟨600, 800, 1.5, ⟨1.5, 0, 0, -1.5, 0, 800⟩⟩
    ⟨"Hello", ⟨12, 0, 0, 12, 50, 700⟩, 40⟩ (by norm_num) (by norm_num)).1

/-- Counterexample to C2 as stated: for the viewport of scale 1.5 and the run
matrix [12,0,0,12,50,700] the loop's font size is 18, while the norm of the
composed matrix's first column multiplied by the scale is 27. -/
theorem C2_counterexample :
    scaledFontSize Real.sqrt (⟨600, 800, 1.5, ⟨1.5, 0, 0, -1.5, 0, 800⟩⟩ : Viewport ℝ)
        ⟨"Hello", ⟨12, 0, 0, 12, 50, 700⟩, 40⟩ = 18
      ∧ specComposedFontSize Real.sqrt (⟨600, 800, 1.5, ⟨1.5, 0, 0, -1.5, 0, 800⟩⟩ : Viewport ℝ)
        ⟨"Hello", ⟨12, 0, 0, 12, 50, 700⟩, 40⟩ = 27
      ∧ scaledFontSize Real.sqrt (⟨600, 800, 1.5, ⟨1.5, 0, 0, -1.5, 0, 800⟩⟩ : Viewport ℝ)
          ⟨"Hello", ⟨12, 0, 0, 12, 50, 700⟩, 40⟩
        ≠ specComposedFontSize Real.sqrt
          (⟨600, 800, 1.5, ⟨1.5, 0, 0, -1.5, 0, 800⟩⟩ : Viewport ℝ)
          ⟨"Hello", ⟨12, 0, 0, 12, 50, 700⟩, 40⟩ := by
  have h18 : scaledFontSize Real.sqrt (⟨600, 800, 1.5, ⟨1.5, 0, 0, -1.5, 0, 800⟩⟩ : Viewport ℝ)
      ⟨"Hello", ⟨12, 0, 0, 12, 50, 700⟩, 40⟩ = 18 := by
    simp only [scaledFontSize, fontSize]
    rw [sqrt_sq_add_zero _ (by norm_num)]
    norm_num
  have h27 : specComposedFontSize Real.sqrt
      (⟨600, 800, 1.5, ⟨1.5, 0, 0, -1.5, 0, 800⟩⟩ : Viewport ℝ)
      ⟨"Hello", ⟨12, 0, 0, 12, 50, 700⟩, 40⟩ = 27 := by
    simp only [specComposedFontSize, Util.transform]
    have e : ((1.5 : ℝ) * 12 + 0 * 0) * (1.5 * 12 + 0 * 0) + (0 * 12 + -1.5 * 0) * (0 * 12 + -1.5 * 0)
        = 18 * 18 + 0 * 0 := by norm_num
    rw [e, sqrt_sq_add_zero _ (by norm_num)]
    norm_num
  refine ⟨h18, h27, ?_⟩
  rw [h18, h27]
  norm_num

/-- C2, amended: the font size computed by the overlay loop, which is the font
size of the editable text, is the Euclidean norm of the first column of the
run's own matrix multiplied by `viewport.scale`; when `viewport.transform` is
`viewport.scale` (not negative) times a rotation or reflection, this value is
the norm of the first column of the composed matrix itself, with no further
factor `viewport.scale`. -/
theorem C2_font_size_from_run_matrix (v : Viewport ℝ) (item : TextItem ℝ) :
    (editableText Real.sqrt v item).fontSize
        = Real.sqrt (item.transform.m0 * item.transform.m0
            + item.transform.m1 * item.transform.m1) * v.scale
      ∧ (0 ≤ v.scale →
          v.transform.m0 * v.transform.m0 + v.transform.m1 * v.transform.m1
            = v.scale * v.scale →
          v.transform.m2 * v.transform.m2 + v.transform.m3 * v.transform.m3
            = v.scale * v.scale →
          v.transform.m0 * v.transform.m2 + v.transform.m1 * v.transform.m3 = 0 →
          (editableText Real.sqrt v item).fontSize
            = Real.sqrt ((Util.transform v.transform item.transform).m0
                  * (Util.transform v.transform item.transform).m0
                + (Util.transform v.transform item.transform).m1
                  * (Util.transform v.transform item.transform).m1)) := by
  refine ⟨rfl, fun hs h1 h2 h3 => ?_⟩
  simp only [editableText, scaledFontSize, fontSize, Util.transform]
  have e : (v.transform.m0 * item.transform.m0 + v.transform.m2 * item.transform.m1)
        * (v.transform.m0 * item.transform.m0 + v.transform.m2 * item.transform.m1)
      + (v.transform.m1 * item.transform.m0 + v.transform.m3 * item.transform.m1)
        * (v.transform.m1 * item.transform.m0 + v.transform.m3 * item.transform.m1)
      = (item.transform.m0 * item.transform.m0 + item.transform.m1 * item.transform.m1)
        * (v.scale * v.scale) := by
    linear_combination (item.transform.m0 * item.transform.m0) * h1
      + (item.transform.m1 * item.transform.m1) * h2
      + (2 * item.transform.m0 * item.transform.m1) * h3
  rw [e, Real.sqrt_mul (add_nonneg (mul_self_nonneg _) (mul_self_nonneg _)),
    Real.sqrt_mul_self hs]

/-- Counterexample to C9 as stated: the non-blank run "Hello" with the all-zero
matrix is not rejected; the canvas gets its patch of height 0 and its editable
text of font size 0. -/
theorem C9_counterexample :
    (initCanvas Real.sqrt none (⟨600, 800, 1.5, ⟨1.5, 0, 0, -1.5, 0, 800⟩⟩ : Viewport ℝ)
        ⟨[⟨"Hello", ⟨0, 0, 0, 0, 0, 0⟩, 40⟩]⟩).objects
      = [.rect { left := 0, top := 800, width := 60, height := 0, fill := "white"
                 selectable := false, evented := false },
         .itext { text := "Hello", left := 0, top := 800, fontSize := 0
                  fontFamily := "Helvetica", fill := "#000", selectable := true }] := by
  rw [initCanvas_objects]
  simp only [List.filter, isBlank, show truthy (jsTrim "Hello") = true from by decide,
    Bool.not_true, Bool.not_false, List.flatMap_cons, List.flatMap_nil, List.append_nil,
    whitePatch, editableText, finalX, finalY, scaledFontSize, fontSize, Util.transform]
  rw [sqrt_sq_add_zero _ (le_refl _)]
  norm_num

/-- C9, amended: a run with non-blank content whose matrix is not invertible
(a·d − b·c = 0) is treated like any other run: no error is raised and the
canvas gets its patch and its editable text, with the geometry computed from
the matrix as it is; when a = b = 0 the font size and the patch height are 0. -/
theorem C9_degenerate_run_is_emitted (prev : Option (Canvas ℝ)) (v : Viewport ℝ)
    (tc : TextContent ℝ) (item : TextItem ℝ) (hmem : item ∈ tc.items)
    (hnb : truthy (jsTrim item.str) = true)
    (_hdet : item.transform.m0 * item.transform.m3
      - item.transform.m1 * item.transform.m2 = 0) :
    FabricObject.rect (whitePatch Real.sqrt v item) ∈ (initCanvas Real.sqrt prev v tc).objects
      ∧ FabricObject.itext (editableText Real.sqrt v item)
          ∈ (initCanvas Real.sqrt prev v tc).objects
      ∧ (item.transform.m0 = 0 → item.transform.m1 = 0 →
          (editableText Real.sqrt v item).fontSize = 0
            ∧ (whitePatch Real.sqrt v item).height = 0) := by
  refine ⟨(pair_mem_initCanvas Real.sqrt prev v tc item hmem hnb).1,
    (pair_mem_initCanvas Real.sqrt prev v tc item hmem hnb).2, fun ha hb => ?_⟩
  simp [editableText, whitePatch, scaledFontSize, fontSize, ha, hb]

/-- Witness of C9, amended: the run "Hello" with the all-zero matrix. -/
theorem C9_degenerate_run_is_emitted_witness :
    FabricObject.itext (editableText Real.sqrt
        (⟨600, 800, 1.5, ⟨1.5, 0, 0, -1.5, 0, 800⟩⟩ : Viewport ℝ)
        ⟨"Hello", ⟨0, 0, 0, 0, 0, 0⟩, 40⟩)
      ∈ (initCanvas Real.sqrt none (⟨600, 800, 1.5, ⟨1.5, 0, 0, -1.5, 0, 800⟩⟩ : Viewport ℝ)
          ⟨[⟨"Hello", ⟨0, 0, 0, 0, 0, 0⟩, 40⟩]⟩).objects :=
  (C9_degenerate_run_is_emitted none ⟨600, 800, 1.5, ⟨1.5, 0, 0, -1.5, 0, 800⟩⟩
    ⟨[⟨"Hello", ⟨0, 0, 0, 0, 0, 0⟩, 40⟩]⟩ ⟨"Hello", ⟨0, 0, 0, 0, 0, 0⟩, 40⟩
    (List.mem_singleton.mpr rfl) (by decide) (by norm_num)).2.1

/-! ## Pairing of patches and texts -/

theorem itext_at_flatMap {α : Type} [Add α] [Sub α] [Mul α] [OfScientific α]
    (sqrt : α → α) (v : Viewport α) (l : List (TextItem α)) (i : Nat) (t : IText α)
    (h : (l.flatMap (fun x => [FabricObject.rect (whitePatch sqrt v x),
        FabricObject.itext (editableText sqrt v x)]))[i]? = some (.itext t)) :
    ∃ j item, item ∈ l ∧ j + 1 = i ∧ t = editableText sqrt v item
      ∧ (l.flatMap (fun x => [FabricObject.rect (whitePatch sqrt v x),
          FabricObject.itext (editableText sqrt v x)]))[j]?
        = some (.rect (whitePatch sqrt v item)) := by
  induction l generalizing i with
  | nil => simp at h
  | cons x rest ih =>
    rw [List.flatMap_cons] at h ⊢
    match i, h with
    | 0, h => simp at h
    | 1, h =>
      refine ⟨0, x, List.mem_cons_self _ _, rfl, ?_, rfl⟩
      simpa using h.symm
    | n + 2, h =>
      obtain ⟨j, item, hm, hj, ht, hp⟩ := ih n (by simpa using h)
      exact ⟨j + 2, item, List.mem_cons_of_mem _ hm, by omega, ht, by simpa using hp⟩

/-- Counterexample to C6 as stated: two equal runs "Hello" give the canvas
patch, text, patch, text; the patches at positions 0 and 2 both have the
position of the text at position 1, the run's width times the scale and 1.2
times its font size as height, so the patch with these properties is not
unique. -/
theorem C6_counterexample :
    (initCanvas Real.sqrt none (⟨600, 800, 1.5, ⟨1.5, 0, 0, -1.5, 0, 800⟩⟩ : Viewport ℝ)
        ⟨[⟨"Hello", ⟨12, 0, 0, 12, 50, 700⟩, 40⟩, ⟨"Hello", ⟨12, 0, 0, 12, 50, 700⟩, 40⟩]⟩).objects
      = [.rect { left := 75, top := -268, width := 60, height := 21.6, fill := "white"
                 selectable := false, evented := false },
         .itext { text := "Hello", left := 75, top := -268, fontSize := 18
                  fontFamily := "Helvetica", fill := "#000", selectable := true },
         .rect { left := 75, top := -268, width := 60, height := 21.6, fill := "white"
                 selectable := false, evented := false },
         .itext { text := "Hello", left := 75, top := -268, fontSize := 18
                  fontFamily := "Helvetica", fill := "#000", selectable := true }]
      ∧ ¬ ∃! j, OcclusionPatchAt
          (initCanvas Real.sqrt none (⟨600, 800, 1.5, ⟨1.5, 0, 0, -1.5, 0, 800⟩⟩ : Viewport ℝ)
            ⟨[⟨"Hello", ⟨12, 0, 0, 12, 50, 700⟩, 40⟩,
              ⟨"Hello", ⟨12, 0, 0, 12, 50, 700⟩, 40⟩]⟩).objects
          { text := "Hello", left := 75, top := -268, fontSize := 18
            fontFamily := "Helvetica", fill := "#000", selectable := true }
          (40 * 1.5) j := by
  have hobjs : (initCanvas Real.sqrt none
        (⟨600, 800, 1.5, ⟨1.5, 0, 0, -1.5, 0, 800⟩⟩ : Viewport ℝ)
        ⟨[⟨"Hello", ⟨12, 0, 0, 12, 50, 700⟩, 40⟩, ⟨"Hello", ⟨12, 0, 0, 12, 50, 700⟩, 40⟩]⟩).objects
      = [.rect { left := 75, top := -268, width := 60, height := 21.6, fill := "white"
                 selectable := false, evented := false },
         .itext { text := "Hello", left := 75, top := -268, fontSize := 18
                  fontFamily := "Helvetica", fill := "#000", selectable := true },
         .rect { left := 75, top := -268, width := 60, height := 21.6, fill := "white"
                 selectable := false, evented := false },
         .itext { text := "Hello", left := 75, top := -268, fontSize := 18
                  fontFamily := "Helvetica", fill := "#000", selectable := true }] := by
    rw [initCanvas_objects]
    simp only [List.filter, isBlank, show truthy (jsTrim "Hello") = true from by decide,
      Bool.not_true, Bool.not_false, List.flatMap_cons, List.flatMap_nil, List.append_nil,
      whitePatch, editableText, finalX, finalY, scaledFontSize, fontSize, Util.transform]
    rw [sqrt_sq_add_zero _ (by norm_num)]
    norm_num
  refine ⟨hobjs, ?_⟩
  rw [hobjs]
  rintro ⟨j, -, huniq⟩
  have h0 := huniq 0 ⟨_, rfl, rfl, rfl, by norm_num, by norm_num⟩
  have h2 := huniq 2 ⟨_, rfl, rfl, rfl, by norm_num, by norm_num⟩
  omega

/-- C6, amended: in every canvas built by `initCanvas`, every editable text is
the text of a non-blank run of the input and has exactly one occlusion patch
immediately before it in the canvas's element order; that patch has the same
(left, top), the run's width times `viewport.scale` as width and 1.2 times the
text's font size as height.  The patch is singled out by its place, not by its
geometry. -/
theorem C6_patch_immediately_before_text (prev : Option (Canvas ℝ)) (v : Viewport ℝ)
    (tc : TextContent ℝ) (i : Nat) (t : IText ℝ)
    (h : (initCanvas Real.sqrt prev v tc).objects[i]? = some (.itext t)) :
    ∃ item ∈ tc.items, isBlank item = false ∧ t = editableText Real.sqrt v item
      ∧ (∃! j, j + 1 = i
          ∧ OcclusionPatchAt (initCanvas Real.sqrt prev v tc).objects t (item.width * v.scale) j)
      ∧ ∀ j, j + 1 = i → (initCanvas Real.sqrt prev v tc).objects[j]?
          = some (.rect { left := t.left, top := t.top, width := item.width * v.scale
                          height := t.fontSize * 1.2, fill := "white"
                          selectable := false, evented := false }) := by
  rw [initCanvas_objects] at h ⊢
  obtain ⟨j, item, hm, hj, ht, hp⟩ := itext_at_flatMap Real.sqrt v _ i t h
  rw [List.mem_filter] at hm
  have hpatch : whitePatch Real.sqrt v item
      = { left := t.left, top := t.top, width := item.width * v.scale
          height := t.fontSize * 1.2, fill := "white"
          selectable := false, evented := false } := by
    rw [ht]
    rfl
  refine ⟨item, hm.1, by simpa using hm.2, ht, ⟨j, ⟨hj, _, hp, ?_, ?_, rfl, ?_⟩, ?_⟩, ?_⟩
  · rw [ht]; rfl
  · rw [ht]; rfl
  · rw [ht]
    exact le_of_eq (mul_comm _ _)
  · rintro k ⟨hk, -⟩
    omega
  · intro k hk
    have : k = j := by omega
    rw [this, hp, hpatch]

/-- Witness of C6, amended: the single run "Hello" with matrix [12,0,0,12,50,700]
and width 40; its text is the canvas's element 1 and its patch element 0. -/
theorem C6_patch_immediately_before_text_witness :
    ∃! j, j + 1 = 1
      ∧ OcclusionPatchAt
          (initCanvas Real.sqrt none (⟨600, 800, 1.5, ⟨1.5, 0, 0, -1.5, 0, 800⟩⟩ : Viewport ℝ)
            ⟨[⟨"Hello", ⟨12, 0, 0, 12, 50, 700⟩, 40⟩]⟩).objects
          (editableText Real.sqrt ⟨600, 800, 1.5, ⟨1.5, 0, 0, -1.5, 0, 800⟩⟩
            ⟨"Hello", ⟨12, 0, 0, 12, 50, 700⟩, 40⟩)
          (40 * 1.5) j := by
  obtain ⟨item, hm, -, -, hu, -⟩ := C6_patch_immediately_before_text none
    (⟨600, 800, 1.5, ⟨1.5, 0, 0, -1.5, 0, 800⟩⟩ : Viewport ℝ)
    ⟨[⟨"Hello", ⟨12, 0, 0, 12, 50, 700⟩, 40⟩]⟩ 1
    (editableText Real.sqrt ⟨600, 800, 1.5, ⟨1.5, 0, 0, -1.5, 0, 800⟩⟩
      ⟨"Hello", ⟨12, 0, 0, 12, 50, 700⟩, 40⟩)
    (by rw [initCanvas_objects]; rfl)
  rw [List.mem_singleton] at hm
  subst hm
  exact hu

/-! ## Export -/

/-- C8: for a canvas of width w and height h, `downloadPDF` creates a document
with page format [w, h] in the unit px and puts the canvas image at (0, 0) with
size (w, h); the orientation is landscape exactly when w > h and portrait
otherwise, the square case w = h included. -/
theorem C8_export_page_matches_canvas {α : Type} [Zero α] [LinearOrder α]
    (toDataURL : Canvas α → String) (canvas : Canvas α) :
    ∃ doc, downloadPDF toDataURL (some canvas) = some doc
      ∧ doc.options.format = (canvas.width, canvas.height)
      ∧ doc.options.unit = "px"
      ∧ doc.image = { imageData := toDataURL canvas, format := "PNG", x := 0, y := 0
                      width := canvas.width, height := canvas.height }
      ∧ (doc.options.orientation = "l" ↔ canvas.width > canvas.height)
      ∧ (doc.options.orientation = "p" ↔ ¬ canvas.width > canvas.height)
      ∧ (canvas.width = canvas.height → doc.options.orientation = "p") := by
  refine ⟨_, rfl, rfl, rfl, rfl, ?_, ?_, ?_⟩
  · by_cases h : canvas.width > canvas.height <;> simp [h]
  · by_cases h : canvas.width > canvas.height <;> simp [h]
  · intro h
    simp [h]

/-! ## The parse endpoint -/

theorem arrayMap_ok {β γ : Type} (f : β → Except JSError γ) (l : List β)
    (h : ∀ b ∈ l, ∃ c, f b = .ok c) :
    ∃ cs : List γ, arrayMap f l = .ok cs ∧ cs.length = l.length
      ∧ ∀ (i : Nat) (b : β), l[i]? = some b → ∃ c, f b = .ok c ∧ cs[i]? = some c := by
  induction l with
  | nil => exact ⟨[], rfl, rfl, by simp⟩
  | cons b bs ih =>
    obtain ⟨c, hc⟩ := h b (List.mem_cons_self _ _)
    obtain ⟨cs, hcs, hlen, hget⟩ := ih (fun x hx => h x (List.mem_cons_of_mem _ hx))
    refine ⟨c :: cs, by simp [arrayMap, hc, hcs], by simp [hlen], ?_⟩
    intro i x hx
    cases i with
    | zero =>
      simp only [List.getElem?_cons_zero, Option.some.injEq] at hx
      subst hx
      exact ⟨c, hc, List.getElem?_cons_zero⟩
    | succ n =>
      simp only [List.getElem?_cons_succ] at hx ⊢
      exact hget n x hx

/-- The handler reads `pdfData.Pages[0]` only: the pages after the first never
change its outcome, be it a response or an exception. -/
theorem dataReady_ignores_later_pages {α : Type}
    (dec : String → Except JSError String) (files : List String) (path : String)
    (page1 : Page α) (rest rest1 : List (Page α)) :
    dataReady dec files path ⟨page1 :: rest⟩ = dataReady dec files path ⟨page1 :: rest1⟩ := by
  simp [dataReady]

/-- C10: for a parsed document with at least one page (whose text items each
have a first run with decodable text, the uploaded file being in place), the
handler answers, and its JSON is determined by the first page only: width and
height are page 1's Width and Height, texts has the length and order of page
1's Texts, each entry carries the URI-decoded text of the item's first run, the
item's x and y, the first run's TS[1] as font size and the colour '#000000';
any other list of later pages gives the same response. -/
theorem C10_response_from_first_page {α : Type}
    (dec : String → Except JSError String) (files : List String) (path : String)
    (page1 : Page α) (rest : List (Page α)) (hfile : path ∈ files)
    (hwf : ∀ t ∈ page1.Texts, ∃ r0 rs s, t.R = r0 :: rs ∧ dec r0.T = .ok s) :
    ∃ (files1 : List String) (resp : ParsedData α),
      dataReady dec files path ⟨page1 :: rest⟩ = .ok (files1, resp)
      ∧ resp.width = page1.Width ∧ resp.height = page1.Height
      ∧ resp.texts.length = page1.Texts.length
      ∧ (∀ (i : Nat) (t : Text α), page1.Texts[i]? = some t →
          ∃ r0 rs s, t.R = r0 :: rs ∧ dec r0.T = .ok s
          ∧ resp.texts[i]? = some { text := s, x := t.x, y := t.y, fontSize := r0.TS[1]?
                                    color := "#000000" })
      ∧ ∀ rest1, dataReady dec files path ⟨page1 :: rest1⟩ = .ok (files1, resp) := by
  have hentry : ∀ t ∈ page1.Texts, ∃ c, textEntry dec t = .ok c := by
    intro t ht
    obtain ⟨r0, rs, s, hR, hs⟩ := hwf t ht
    exact ⟨{ text := s, x := t.x, y := t.y, fontSize := r0.TS[1]?, color := "#000000" },
      by simp [textEntry, hR, hs]⟩
  obtain ⟨cs, hcs, hlen, hget⟩ := arrayMap_ok (textEntry dec) page1.Texts hentry
  have hrun : ∀ rest1, dataReady dec files path ⟨page1 :: rest1⟩
      = .ok (files.filter (fun q => q != path),
          { width := page1.Width, height := page1.Height, texts := cs }) := by
    intro rest1
    simp [dataReady, hcs, unlinkSync, hfile]
  refine ⟨_, _, hrun rest, rfl, rfl, hlen, ?_, hrun⟩
  intro i t hi
  obtain ⟨r0, rs, s, hR, hs⟩ := hwf t (List.getElem?_mem hi)
  obtain ⟨c, hc, hci⟩ := hget i t hi
  refine ⟨r0, rs, s, hR, hs, ?_⟩
  rw [hci]
  simp [textEntry, hR, hs] at hc
  rw [← hc]

/-- Witness of C10: a document of two pages whose first page holds one text
item, "Hello%20World" at (1, 2) with style array [0, 12, 0, 0]; the response is
built from page 1 alone. -/
theorem C10_response_from_first_page_witness :
    ∃ (files1 : List String) (resp : ParsedData ℚ),
      dataReady decodeURIComponent ["uploads/a1", "uploads/b2"] "uploads/a1"
          ⟨[⟨612, 792, [⟨1, 2, [⟨"Hello%20World", [0, 12, 0, 0]⟩]⟩]⟩,
            ⟨100, 200, [⟨5, 6, [⟨"later", [0, 9, 0, 0]⟩]⟩]⟩]⟩
        = .ok (files1, resp)
      ∧ resp.width = 612 ∧ resp.height = 792 ∧ resp.texts.length = 1
      ∧ resp.texts[0]? = some { text := "Hello World", x := 1, y := 2, fontSize := some 12
                                color := "#000000" } := by
  obtain ⟨files1, resp, hrun, hw, hh, hlen, hget, -⟩ :=
    C10_response_from_first_page (α := ℚ) decodeURIComponent
      ["uploads/a1", "uploads/b2"] "uploads/a1"
      ⟨612, 792, [⟨1, 2, [⟨"Hello%20World", [0, 12, 0, 0]⟩]⟩]⟩
      [⟨100, 200, [⟨5, 6, [⟨"later", [0, 9, 0, 0]⟩]⟩]⟩]
      (by decide)
      (by
        intro t ht
        rw [List.mem_singleton] at ht
        subst ht
        exact ⟨_, _, "Hello World", rfl, rfl⟩)
  refine ⟨files1, resp, hrun, hw, hh, hlen, ?_⟩
  obtain ⟨r0, rs, s, hR, hs, ht⟩ := hget 0 _ rfl
  simp only [List.cons.injEq] at hR
  obtain ⟨rfl, -⟩ := hR
  have hs1 : s = "Hello World" := by
    have h1 : decodeURIComponent "Hello%20World" = .ok "Hello World" := rfl
    rw [h1] at hs
    exact (Except.ok.inj hs).symm
  rw [ht, hs1]
  rfl

end PdfEditor
